import Mathlib

/-!
Shallow embedding of `sk_sugar/core.py` (SUGAR: geometry-based data
generation).  Floating-point values are modelled as exact rationals or
reals; the IEEE special values `nan`, `inf`, `-inf` that the numpy code
produces and then handles explicitly are modelled by the `PyF` wrapper
type.  Fallible code paths (Python exceptions) are modelled with
`Except String`.
-/

/-- Model of a numpy floating-point value: either an ordinary (exact)
number or one of the IEEE special values `nan`, `inf`, `-inf`. -/
inductive PyF (K : Type) where
  | nan : PyF K
  | inf : PyF K
  | ninf : PyF K
  | val (x : K) : PyF K
deriving DecidableEq

/-- numpy division `num / den` on floats with `den` possibly zero:
`0/0 = nan`, `x/0 = inf` for `x > 0`, `x/0 = -inf` for `x < 0`. -/
def pyDiv {K : Type} [LinearOrderedField K] (num den : K) : PyF K :=
  if den = 0 then (if num = 0 then .nan else if 0 < num then .inf else .ninf)
  else .val (num / den)

/-- numpy elementwise power `x ** a` for a natural exponent on a `PyF`
value: `nan ** 0 = inf ** 0 = (-inf) ** 0 = 1`, `inf ** a = inf`,
`(-inf) ** a = inf` for even `a` and `-inf` for odd `a`. -/
def pyPow {K : Type} [LinearOrderedField K] : PyF K → ℕ → PyF K
  | .val x, a => .val (x ^ a)
  | .nan, a => if a = 0 then .val 1 else .nan
  | .inf, a => if a = 0 then .val 1 else .inf
  | .ninf, a => if a = 0 then .val 1 else if a % 2 = 0 then .inf else .ninf

/-- numpy `exp(-x)` on a `PyF` real: `exp(-inf) = 0`, `exp(-(-inf)) = inf`,
`exp(-nan) = nan`. -/
noncomputable def pyExpNeg : PyF ℝ → PyF ℝ
  | .val x => .val (Real.exp (-x))
  | .nan => .nan
  | .inf => .val 0
  | .ninf => .inf

/-- numpy elementwise product of an ordinary float `x` with a `PyF` value:
`x * nan = nan`, `0 * (±inf) = nan`, otherwise the sign rules of `±inf`. -/
def pmulF {K : Type} [LinearOrderedField K] (x : K) : PyF K → PyF K
  | .val y => .val (x * y)
  | .nan => .nan
  | .inf => if x = 0 then .nan else if 0 < x then .inf else .ninf
  | .ninf => if x = 0 then .nan else if 0 < x then .ninf else .inf

/-- Lines 175-176 of `core.py`: `K[np.isnan(K)] = 0` followed by
`K[np.where(K < 1e-3)] = 0`.  A `-inf` entry satisfies `-inf < 1e-3` and
is therefore zeroed as well.  A `+inf` entry would be kept by numpy; it is
mapped to `0` here, but it is unreachable in every use in this file
because pairwise distances are nonnegative, so `pyDiv` never produces
`-inf` and `pyExpNeg ∘ pyPow` never produces `+inf` on such inputs. -/
noncomputable def pyZeroFloor : PyF ℝ → ℝ
  | .nan => 0
  | .inf => 0
  | .ninf => 0
  | .val x => if x < 1 / 1000 then 0 else x

/-- One entry of the affinity matrix before symmetrisation, lines 172-176
of `core.py`: `K = exp(-(D / sigma) ** a)` with NaN and sub-`1e-3`
entries zeroed. -/
noncomputable def kernelEntry (d s : ℝ) (a : ℕ) : ℝ :=
  pyZeroFloor (pyExpNeg (pyPow (pyDiv d s) a))

/-- `scipy.spatial.distance.cdist(data1, data2, metric=euclidean)`:
the rectangular matrix of pairwise Euclidean distances. -/
noncomputable def distMatrix {n m dd : ℕ} (data1 : Fin n → Fin dd → ℝ)
    (data2 : Fin m → Fin dd → ℝ) : Fin n → Fin m → ℝ :=
  fun i j => Real.sqrt (∑ t, (data1 i t - data2 j t) ^ 2)

/-- A resolved kernel bandwidth: a constant scalar or one value per
column of the distance matrix (`m` columns). -/
inductive BandwidthV (m : ℕ) where
  | scalar (x : ℝ) : BandwidthV m
  | vec (v : Fin m → ℝ) : BandwidthV m

/-- The bandwidth that divides column `j` of the distance matrix
(numpy broadcasting of `np.divide(D, sigma)`). -/
def colSigma {m : ℕ} : BandwidthV m → Fin m → ℝ
  | .scalar x, _ => x
  | .vec v, j => v j

/-- Line 169 of `core.py`: `sigma = sigma * fac`. -/
def bwScale {m : ℕ} (b : BandwidthV m) (fac : ℝ) : BandwidthV m :=
  match b with
  | .scalar x => .scalar (x * fac)
  | .vec v => .vec (fun j => v j * fac)

/-- A bandwidth specification as accepted by `gauss_kernel`: a heuristic
name, a user callable mapping the distance matrix to a bandwidth, or a
numeric literal. -/
inductive SigmaSpec (n m : ℕ) where
  | name (s : String) : SigmaSpec n m
  | fn (f : (Fin n → Fin m → ℝ) → BandwidthV m) : SigmaSpec n m
  | num (x : ℝ) : SigmaSpec n m

/-- Line 38 of `core.py`: `VALID_SIGMAS = 'minmax median std knn'.split()`. -/
def VALID_SIGMAS : List String := ["minmax", "median", "std", "knn"]

/-- The check of `validate_sigma` (lines 40-75): the spec is known when it
is one of the four heuristic names, a callable, or numeric. -/
def validSigma {n m : ℕ} : SigmaSpec n m → Bool
  | .name s => VALID_SIGMAS.contains s
  | .fn _ => true
  | .num _ => true

/-- Display name of a spec, used only in the error message. -/
def specName {n m : ℕ} : SigmaSpec n m → String
  | .name s => s
  | .fn _ => "callable"
  | .num _ => "numeric"

/-- The `ValueError` message raised by `validate_sigma` for an unknown
spec (line 75 of `core.py`, text abbreviated). -/
def invalidSigmaMessage (s : String) : String :=
  "ValueError: sigma (" ++ s ++ ") is not known or callable"

/-- The numpy broadcasting error raised when `D + np.eye(D.shape[0])`
is evaluated on incompatible shapes (line 141 of `core.py`). -/
def broadcastErrorMessage : String :=
  "ValueError: operands could not be broadcast together"

/-- `np.min(f, axis=0)`-style fold of a nonempty family of reals
(the first element is also the fold seed, which is harmless for
min/max). -/
def finListMin {c : ℕ} [NeZero c] (f : Fin c → ℝ) : ℝ :=
  ((List.finRange c).map f).foldl min (f ⟨0, Nat.pos_of_ne_zero (NeZero.ne c)⟩)

/-- `np.max`-style fold of a nonempty family of reals. -/
def finListMax {c : ℕ} [NeZero c] (f : Fin c → ℝ) : ℝ :=
  ((List.finRange c).map f).foldl max (f ⟨0, Nat.pos_of_ne_zero (NeZero.ne c)⟩)

/-- Ascending insertion into a sorted list (used to model `np.sort`). -/
def insertAsc {α : Type} [LinearOrder α] (x : α) : List α → List α
  | [] => [x]
  | y :: ys => if x ≤ y then x :: y :: ys else y :: insertAsc x ys

/-- `np.sort` on a 1-D array (ascending insertion sort; the code uses a
stable mergesort, and stability is irrelevant for the values taken). -/
def sortAsc {α : Type} [LinearOrder α] : List α → List α
  | [] => []
  | x :: xs => insertAsc x (sortAsc xs)

/-- `np.median` of a 1-D array: the middle element of the sorted values,
or the mean of the two middle elements for an even count.  numpy returns
NaN for an empty array; claims never evaluate that case. -/
noncomputable def npMedianR (l : List ℝ) : ℝ :=
  let s := sortAsc l
  let c := s.length
  if c = 0 then 0
  else if c % 2 = 1 then s.getD (c / 2) 0
  else (s.getD (c / 2 - 1) 0 + s.getD (c / 2) 0) / 2

/-- `np.std(l, ddof=1)`: unbiased sample standard deviation.  For a
single element numpy produces NaN from `0/0`; here Lean division by zero
gives `sqrt 0 = 0`; claims never evaluate that case. -/
noncomputable def sampleStd (l : List ℝ) : ℝ :=
  Real.sqrt (((l.map (fun x => (x - l.sum / l.length) ^ 2)).sum) / (l.length - 1))

/-- Bandwidth resolution, lines 140-168 of `core.py`, applied to the
distance matrix `D` (shape `n × m`):
* `minmax`: `min_dev = np.min(D + np.eye(D.shape[0]) * 10**15, axis=0)`,
  `eps_val = np.max(min_dev)`, `sigma = 2 * eps_val**2`.  `np.eye` has
  shape `n × n`, so the addition broadcasts only when `m = n`, `m = 1`
  or `n = 1`; any other rectangular shape raises a broadcast error.
* `median`: median of the per-row medians (`np.median(np.median(D, axis=1))`).
* `std`: `np.std(np.mean(D, axis=0), ddof=1)`.
* `knn`: per column the `k`-th smallest distance (0-indexed), raising an
  index error when `k` is out of range.
* numeric: used verbatim; callable: invoked on `D`.
The final unreachable branch mirrors `else: pass` of the code, which is
never taken once `validate_sigma` has accepted the spec. -/
noncomputable def resolveSigma {n m : ℕ} [NeZero n] [NeZero m]
    (D : Fin n → Fin m → ℝ) (spec : SigmaSpec n m) (k : ℕ) :
    Except String (BandwidthV m) :=
  match spec with
  | .num x => .ok (.scalar x)
  | .fn f => .ok (f D)
  | .name s =>
    if s = "minmax" then
      if hmn : m = n then
        .ok (.scalar (2 * (finListMax (fun j : Fin m =>
          finListMin (fun i : Fin n =>
            D i j + (if (i : ℕ) = (j : ℕ) then (10 : ℝ) ^ (15 : ℕ) else 0)))) ^ 2))
      else if hm1 : m = 1 then
        -- broadcasting (n,1) + (n,n) → (n,n): the single column is replicated
        .ok (.scalar (2 * (finListMax (fun j : Fin n =>
          finListMin (fun i : Fin n =>
            D i ⟨0, by omega⟩ + (if (i : ℕ) = (j : ℕ) then (10 : ℝ) ^ (15 : ℕ) else 0)))) ^ 2))
      else if hn1 : n = 1 then
        -- broadcasting (1,m) + (1,1) → (1,m): 10^15 is added everywhere
        .ok (.scalar (2 * (finListMax (fun j : Fin m =>
          D ⟨0, by omega⟩ j + (10 : ℝ) ^ (15 : ℕ))) ^ 2))
      else .error broadcastErrorMessage
    else if s = "median" then
      .ok (.scalar (npMedianR ((List.finRange n).map (fun i =>
        npMedianR ((List.finRange m).map (fun j => D i j))))))
    else if s = "std" then
      .ok (.scalar (sampleStd ((List.finRange m).map (fun j =>
        (∑ i, D i j) / n))))
    else if s = "knn" then
      if hk : k < n then
        .ok (.vec (fun j => (sortAsc ((List.finRange n).map (fun i => D i j))).getD k 0))
      else .error "IndexError: index out of bounds for axis 0"
    else .error (invalidSigmaMessage s)

/-- Lines 172-179 of `core.py`: build the affinity matrix from the
distance matrix and a resolved bandwidth, then symmetrise square results
by averaging with the transpose. -/
noncomputable def gaussKernelK {n m : ℕ} (D : Fin n → Fin m → ℝ)
    (s : BandwidthV m) (a : ℕ) : Fin n → Fin m → ℝ :=
  let K := fun i j => kernelEntry (D i j) (colSigma s j) a
  if h : n = m then
    fun i j => (K i j + K (Fin.cast h.symm j) (Fin.cast h i)) / 2
  else K

/-- `gauss_kernel(data1, data2, sigma, k, a, fac)`, lines 78-181 of
`core.py`.  `validate_sigma` runs first and raises before the pairwise
distance matrix is computed; then the bandwidth is resolved, rescaled by
`fac`, and the kernel is built. -/
noncomputable def gaussKernelModel {n m dd : ℕ} [NeZero n] [NeZero m]
    (data1 : Fin n → Fin dd → ℝ) (data2 : Fin m → Fin dd → ℝ)
    (spec : SigmaSpec n m) (k a : ℕ) (fac : ℝ) :
    Except String ((Fin n → Fin m → ℝ) × BandwidthV m) :=
  if validSigma spec then
    match resolveSigma (distMatrix data1 data2) spec k with
    | .error e => .error e
    | .ok s0 =>
      .ok (gaussKernelK (distMatrix data1 data2) (bwScale s0 fac) a, bwScale s0 fac)
  else .error (invalidSigmaMessage (specName spec))

/-- `np.divide(1, x)` on a float: `1/0 = inf` (with a runtime warning),
otherwise the ordinary reciprocal. -/
noncomputable def pyRecip (x : ℝ) : PyF ℝ :=
  if x = 0 then .inf else .val (1 / x)

/-- `degrees(data, sigma, k, a, fac)`, lines 184-248 of `core.py`.
`validate_sigma` runs (again inside `gauss_kernel`), the self-affinity
kernel is built, and the raw column mass `p = np.sum(K, axis=0)` is
rescaled by `N = data.shape[1]` — the number of COLUMNS of the data
matrix, even though the docstring calls `N` the number of rows:
`d_hat = p * N / np.sum(p)`, `s_hat = np.divide(1, d_hat)`.
When `np.sum(p) = 0` numpy produces NaN entries; that degenerate case is
modelled by Lean division (yielding 0) and is not exercised by any
claim. -/
noncomputable def degreesModel {n dd : ℕ} [NeZero n]
    (data : Fin n → Fin dd → ℝ) (spec : SigmaSpec n n) (k a : ℕ) (fac : ℝ) :
    Except String ((Fin n → ℝ) × (Fin n → PyF ℝ) × BandwidthV n) :=
  match gaussKernelModel data data spec k a fac with
  | .error e => .error e
  | .ok (K, s) =>
    let N : ℝ := dd
    let p := fun j : Fin n => ∑ i, K i j
    let totp := ∑ j, p j
    let d_hat := fun j => p j * N / totp
    .ok (d_hat, fun j => pyRecip (d_hat j), s)

/-- Piecewise-linear interpolation through a list of `(x, y)` points with
increasing `x`, as in `np.interp`: at or before the first point the first
`y` is returned, past the last point the fallback (the `right` argument)
is returned. -/
def interpPts {K : Type} [LinearOrderedField K] (x : K) :
    List (K × K) → K → K
  | [], rfb => rfb
  | [(x1, y1)], rfb => if x ≤ x1 then y1 else rfb
  | (x1, y1) :: (x2, y2) :: rest, rfb =>
    if x ≤ x1 then y1
    else if x ≤ x2 then y1 + (x - x1) * (y2 - y1) / (x2 - x1)
    else interpPts x ((x2, y2) :: rest) rfb

/-- `matlab_percentile(in_data, p)`, lines 517-543 of `core.py`: sort the
data, attach the ranks `100 * (i + 0.5) / n`, and interpolate with
`np.interp(p, p_rank, data, left=data[0], right=data[-1])`.  numpy raises
on an empty input (`data[0]`); the empty case returns 0 here and is not
exercised by any claim. -/
def matlabPercentile {K : Type} [LinearOrderedField K] (l : List K) (p : K) : K :=
  let d := sortAsc l
  match d with
  | [] => 0
  | d0 :: _ =>
    let c : K := d.length
    let pts := ((List.range d.length).zip d).map
      (fun iv => (100 * ((iv.1 : K) + 1 / 2) / c, iv.2))
    interpPts p pts (d.getLastD d0)

/-- Lines 590-593 of `core.py`: `np.diag(np.sum(kernel, axis=1) ** -1)`
with infinite entries (from a zero row sum) replaced by 0. -/
def diffusionDegree {nn : ℕ} {K : Type} [LinearOrderedField K]
    (kernel : Fin nn → Fin nn → K) (i : Fin nn) : K :=
  if (∑ j, kernel i j) = 0 then 0 else (∑ j, kernel i j)⁻¹

/-- Line 594 of `core.py`: `diffusion_operator = diffusion_degree @ kernel`
(the diagonal matrix collapses to a per-row factor). -/
def diffusionOperator {nn : ℕ} {K : Type} [LinearOrderedField K]
    (kernel : Fin nn → Fin nn → K) : Fin nn → Fin nn → K :=
  fun i j => diffusionDegree kernel i * kernel i j

/-- One application of the diffusion operator to the point coordinates:
`data_imputed = diffusion_operator @ data_imputed` (line 600). -/
def matApply {nn dd : ℕ} {K : Type} [LinearOrderedField K]
    (op : Fin nn → Fin nn → K) (X : Fin nn → Fin dd → K) :
    Fin nn → Fin dd → K :=
  fun i j => ∑ l, op i l * X l j

/-- `magic(data, kernel, t, rescale)`, lines 546-612 of `core.py`, for the
shape-matched case `data.shape[0] = kernel.shape[0]` (the transpose fixup
of lines 582-587 only fires on mismatched shapes and is exercised by no
claim).  The diffusion operator is applied `t` times; if `rescale` is
set, each column is multiplied by the ratio of the 95th matlab-style
percentile of the input column to that of the imputed column — a numpy
float division that yields NaN (or ±inf) when the imputed percentile is
zero, which `pyDiv`/`pmulF` model explicitly. -/
def magicModel {nn dd : ℕ} {K : Type} [LinearOrderedField K]
    (data : Fin nn → Fin dd → K) (kernel : Fin nn → Fin nn → K)
    (t : ℕ) (rescale : Bool) :
    (Fin nn → Fin dd → PyF K) × (Fin nn → Fin nn → K) :=
  let op := diffusionOperator kernel
  let imputed := (matApply op)^[t] data
  if rescale then
    let ratio := fun j : Fin dd =>
      pyDiv (matlabPercentile ((List.finRange nn).map (fun i => data i j)) 95)
            (matlabPercentile ((List.finRange nn).map (fun i => imputed i j)) 95)
    (fun i j => pmulF (imputed i j) (ratio j), op)
  else
    (fun i j => .val (imputed i j), op)

/-- The warning emitted by `mgc_magic` when `t = 0` (line 689). -/
def zeroDiffusionMessage : String :=
  "mgc_magic was passed t=0, no mgc_magic was performed"

/-- A bandwidth specification that is not tied to one matrix shape, as in
Python where the same `sigma` argument is passed to `gauss_kernel` for
both the `Y → X` and the `X → Y` distance matrices: a heuristic name, a
numeric literal, or a callable usable at any shape. -/
inductive SigmaSpecG where
  | name (s : String) : SigmaSpecG
  | num (x : ℝ) : SigmaSpecG
  | fn (f : ∀ {n m : ℕ}, (Fin n → Fin m → ℝ) → BandwidthV m) : SigmaSpecG

/-- Instantiate a shape-generic bandwidth spec at one matrix shape. -/
def specAt (g : SigmaSpecG) (n m : ℕ) : SigmaSpec n m :=
  match g with
  | .name s => .name s
  | .num x => .num x
  | .fn f => .fn f

/-- `mgc_magic(X, Y, s_hat, sigma, k, a, fac, t, magic_rescale)`, lines
615-703 of `core.py`.  When `t = 0` the code assigns `new_data = Y` and
emits a warning, but does NOT return: it falls through, builds both
rectangular kernels, the sparsity-weighted MGC kernel, and calls `magic`
(which with `t = 0` applies zero diffusion steps), overwriting
`new_data`.  The list of emitted warnings is returned alongside. -/
noncomputable def mgcMagicModel {nX nY dd : ℕ} [NeZero nX] [NeZero nY]
    (X : Fin nX → Fin dd → ℝ) (Y : Fin nY → Fin dd → ℝ)
    (s_hat : Fin nX → ℝ) (sigma : SigmaSpecG)
    (k a : ℕ) (fac : ℝ) (t : ℕ) (magic_rescale : Bool) :
    Except String ((Fin nY → Fin dd → PyF ℝ) × (Fin nY → Fin nY → ℝ) ×
      (Fin nY → Fin nY → ℝ) × List String) :=
  let warns := if t = 0 then [zeroDiffusionMessage] else []
  match gaussKernelModel Y X (specAt sigma nY nX) k a fac,
        gaussKernelModel X Y (specAt sigma nX nY) k a fac with
  | .error e, _ => .error e
  | .ok _, .error e => .error e
  | .ok (new_to_old, _), .ok (old_to_new, _) =>
    -- np.multiply(new_to_old, s_hat): each column j is scaled by s_hat[j]
    let new_to_old_sparsity := fun (i : Fin nY) (j : Fin nX) => new_to_old i j * s_hat j
    -- mgc_kernel = new_to_old_sparsity @ old_to_new, then symmetrised
    let mgc0 := fun (i j : Fin nY) => ∑ l, new_to_old_sparsity i l * old_to_new l j
    let mgc_kernel := fun i j => (mgc0 i j + mgc0 j i) / 2
    let res := magicModel Y mgc_kernel t magic_rescale
    .ok (res.1, mgc_kernel, res.2, warns)

/-- `np.max` of a 1-D array (errors on empty input in numpy; 0 here,
guarded by nonemptiness hypotheses in the theorems). -/
def listMax {K : Type} [LinearOrder K] [Zero K] : List K → K
  | [] => 0
  | x :: xs => xs.foldl max x

/-- The `equalize=False` branch of `numpts(degree, ..., M, equalize)`,
lines 299-422 of `core.py` (the `equalize=True` branch is exercised by no
claim and is not modelled):
* `if not bool(M): M = N` — only `M == 0` is falsy in Python, so a
  NEGATIVE `M` is kept as supplied (line 405);
* `number_estimate = const - degree` with `const = np.max(degree)`;
* `number_estimate = (number_estimate * M) / (np.sum(number_estimate) + 1e-17)`;
* `npts = np.floor(number_estimate)`;
* post-check: a budget summing to 0 is replaced by a vector of ones
  (with a warning); a budget summing above `10**4` only warns. -/
def numptsNoEq {K : Type} [LinearOrderedField K] [FloorRing K]
    (degree : List K) (M0 : ℤ) : List ℤ :=
  let N : ℤ := degree.length
  let M : ℤ := if M0 = 0 then N else M0
  let const : K := listMax degree
  let raw : List K := degree.map (fun d => const - d)
  let scaled : List K := raw.map (fun r => r * (M : K) / (raw.sum + 1 / 10 ^ 17))
  let npts : List ℤ := scaled.map Int.floor
  if npts.sum = 0 then List.replicate degree.length 1 else npts

/-- The noise model accepted by `generate`: one scalar variance for all
points, or one covariance matrix per point. -/
inductive NoiseModel (K : Type) where
  | scalar (c : K) : NoiseModel K
  | matrix (covs : List (List (List K))) : NoiseModel K

/-- The Python value built by the repeated statement
`labels_out = [labels_out, new_labels]` in `generate` (lines 477 and
489): each iteration creates a two-element Python list whose first
element is the PREVIOUS `labels_out` object and whose second element is
the replicated label array — a nested pair structure, not a flat
concatenation. -/
inductive PyLabels (L : Type) where
  | empty : PyLabels L
  | pair (fst : PyLabels L) (snd : List L) : PyLabels L
deriving DecidableEq

/-- The label accumulation loop shared by both branches of `generate`:
when the `labels` argument is truthy (nonempty), each source index `i`
nests `np.tile(labels[i], npts[i])` onto the accumulator. -/
def generateLabels {L : Type} [Inhabited L] (labels : List L)
    (npts : List ℤ) (n : ℕ) : PyLabels L :=
  (List.range n).foldl
    (fun acc i =>
      if !labels.isEmpty then
        .pair acc (List.replicate (npts.getD i 0).toNat (labels.getD i default))
      else acc)
    .empty

/-- `generate(data, npts, noise_cov, labels)`, lines 425-513 of `core.py`.
Sampling (`np.random.multivariate_normal`) is abstracted by the `draw`
oracle.
* Scalar `noise_cov` branch (lines 469-481): the loop builds
  `rep_centers` as a Python LIST of flattened tiles, then evaluates
  `np.random.Generator.multivariate_normal(rep_centers.T, noise_cov *
  np.ones(1, data.shape[1]))` — `rep_centers` is a list, so the attribute
  access `.T` raises `AttributeError` unconditionally (and the call would
  also misuse `Generator.multivariate_normal` and `np.ones`).
* Per-point covariance branch (lines 483-512): centers are tiled and kept
  when `np.size(new_center) != 0`; covariance blocks are tiled when
  `npts[i] != 0` (numpy treats a negative tile count as 0); if every
  `npts[i]` is 0 the list `rep_cov` stays empty and `np.vstack([])`
  raises `ValueError`; otherwise one sample is drawn per replicated
  center. -/
def generateModel {K L : Type} [LinearOrderedField K] [Inhabited L]
    (data : List (List K)) (npts : List ℤ) (noise : NoiseModel K)
    (labels : List L) (draw : List K → List (List K) → List K) :
    Except String (List (List K) × PyLabels L) :=
  let n := data.length
  match noise with
  | .scalar _ =>
    let rep_centers : List (List K) :=
      (List.range n).map (fun i =>
        (List.replicate (npts.getD i 0).toNat (data.getD i [])).flatten)
    let labels_out := generateLabels labels npts n
    -- np.random.Generator.multivariate_normal(rep_centers.T, ...):
    -- rep_centers is a Python list and has no attribute T
    have _ := rep_centers
    have _ := labels_out
    .error "AttributeError: list object has no attribute T"
  | .matrix covs =>
    let labels_out := generateLabels labels npts n
    if (List.range n).all (fun i => npts.getD i 0 = 0) then
      -- rep_cov = np.vstack([]) with an empty list of blocks
      .error "ValueError: need at least one array to concatenate"
    else
      let rep_centers : List (List K) :=
        (List.range n).flatMap (fun i =>
          let row := data.getD i []
          let ni := (npts.getD i 0).toNat
          if row.length * ni = 0 then [] else List.replicate ni row)
      let rep_cov : List (List (List K)) :=
        (List.range n).flatMap (fun i =>
          List.replicate (npts.getD i 0).toNat (covs.getD i []))
      let random_points := (rep_centers.zip rep_cov).map (fun p => draw p.1 p.2)
      .ok (random_points, labels_out)

/-- The rows of a `Fin`-indexed data matrix as a list of lists. -/
noncomputable def dataRows {n dd : ℕ} (data : Fin n → Fin dd → ℝ) :
    List (List ℝ) :=
  (List.finRange n).map (fun i => (List.finRange dd).map (fun t => data i t))

/-- `sugar(data, labels, noise_cov, ...)`, lines 706-903 of `core.py`,
along the path taken by a SCALAR `noise_cov` with `equalize=False` and
`mgc_t = 0`:
* `degrees` binds its bandwidth to the local `degree_sigma` (line 864) —
  the name `sigma` is never assigned anywhere in `sugar`;
* the branch `if noise_cov == 'knn'` (line 873) is skipped for a scalar,
  so the local `noise` is never assigned either;
* `numpts` is called with `equalize=False`, then `generate` with the
  scalar noise covariance — whose scalar branch raises `AttributeError`
  (see `generateModel`);
* had `generate` returned, `mgc_t = 0` would take the `else` branch
  (`Y = random_points`, empty kernels), and the `return` statement
  (line 903) evaluates the unbound names `sigma` and `noise`, raising
  `NameError: name sigma is not defined`. -/
noncomputable def sugarScalarNoEqModel {n dd : ℕ} [NeZero n] {L : Type}
    [Inhabited L] (data : Fin n → Fin dd → ℝ) (labels : List L)
    (noise_cov : ℝ) (degree_spec : SigmaSpec n n) (degree_k degree_a : ℕ)
    (degree_fac : ℝ) (M : ℤ)
    (draw : List ℝ → List (List ℝ) → List ℝ) : Except String Unit :=
  match degreesModel data degree_spec degree_k degree_a degree_fac with
  | .error e => .error e
  | .ok (d_hat, _s_hat, _degree_sigma) =>
    let npts := numptsNoEq ((List.finRange n).map d_hat) M
    match generateModel (dataRows data) npts (.scalar noise_cov) labels draw with
    | .error e => .error e
    | .ok (_random_points, _out_labels) =>
      -- return Y, out_labels, d_hat, s_hat, sigma, noise, ... (line 903):
      -- `sigma` is unbound on every path, `noise` is unbound for scalar noise
      .error "NameError: name sigma is not defined"

/-- A concrete nonnegative kernel with one positive row and one zero row,
used to evaluate the diffusion-operator theorem. -/
def kernelC7 : Fin 2 → Fin 2 → ℚ := fun i _ => if i = 0 then 1 else 0

/-- The seed of a `foldl max` is a lower bound of the result, and so is
every list element. -/
theorem le_foldl_max {K : Type} [LinearOrder K] (l : List K) (a : K) :
    a ≤ l.foldl max a ∧ ∀ x ∈ l, x ≤ l.foldl max a := by
  induction l generalizing a with
  | nil => exact ⟨le_refl a, by simp⟩
  | cons b bs ih =>
    simp only [List.foldl_cons]
    refine ⟨le_trans (le_max_left a b) (ih (max a b)).1, ?_⟩
    intro x hx
    rcases List.mem_cons.mp hx with h | h
    · exact le_trans (by rw [h]; exact le_max_right a b) (ih (max a b)).1
    · exact (ih (max a b)).2 x h

/-- Every element of a list is bounded by `listMax`. -/
theorem le_listMax {K : Type} [LinearOrder K] [Zero K] (l : List K)
    (x : K) (hx : x ∈ l) : x ≤ listMax l := by
  cases l with
  | nil => cases hx
  | cons a as =>
    rcases List.mem_cons.mp hx with h | h
    · exact h ▸ (le_foldl_max as a).1
    · exact (le_foldl_max as a).2 x h

/-- `Claim C5` (confirmed): a bandwidth spec that is not a recognised
heuristic name (and not callable, not numeric) makes `gauss_kernel`
raise the invalid-bandwidth error immediately — for every pair of input
point sets, the result is the same error, independent of the data,
because `validate_sigma` runs before the pairwise-distance matrix is
computed. -/
theorem C5_invalid_sigma_error {n m dd : ℕ} [NeZero n] [NeZero m]
    (data1 : Fin n → Fin dd → ℝ) (data2 : Fin m → Fin dd → ℝ)
    (s : String) (k a : ℕ) (fac : ℝ) (h : s ∉ VALID_SIGMAS) :
    gaussKernelModel data1 data2 (SigmaSpec.name s) k a fac
      = Except.error (invalidSigmaMessage s) := by
  have hv : validSigma (SigmaSpec.name s : SigmaSpec n m) = false := by
    simpa [validSigma, List.contains_iff_exists_mem_beq] using h
  simp [gaussKernelModel, hv, specName]

/-- Witness for `C5_invalid_sigma_error` at the spec string `"bogus"`. -/
theorem C5_invalid_sigma_error_witness :
    gaussKernelModel ((fun _ _ => (0 : ℝ)) : Fin 1 → Fin 1 → ℝ)
        ((fun _ _ => (0 : ℝ)) : Fin 1 → Fin 1 → ℝ)
        (SigmaSpec.name "bogus") 5 2 1
      = Except.error (invalidSigmaMessage "bogus") :=
  C5_invalid_sigma_error _ _ "bogus" 5 2 1 (by decide)

/-- `Claim C7` (confirmed): the diffusion operator built by `magic`
(`diag(row_sum(kernel)^-1) @ kernel` with infinite entries mapped to 0)
has each row summing to 1, except rows of zero-degree points (zero
kernel row sum), which become all-zero rows summing to 0 rather than
containing NaN or infinity. -/
theorem C7_diffusion_operator_rows {nn : ℕ} (kernel : Fin nn → Fin nn → ℚ)
    (_hpos : ∀ i j, 0 ≤ kernel i j) (i : Fin nn) :
    ((∑ j, kernel i j) ≠ 0 → ∑ j, diffusionOperator kernel i j = 1) ∧
    ((∑ j, kernel i j) = 0 →
      (∀ j, diffusionOperator kernel i j = 0) ∧
      ∑ j, diffusionOperator kernel i j = 0) := by
  constructor
  · intro hs
    simp only [diffusionOperator, diffusionDegree, if_neg hs]
    rw [← Finset.mul_sum]
    exact inv_mul_cancel₀ hs
  · intro hs
    have hz : ∀ j, diffusionOperator kernel i j = 0 := by
      intro j
      simp [diffusionOperator, diffusionDegree, hs]
    exact ⟨hz, by simp [hz]⟩

/-- Witness for `C7_diffusion_operator_rows` on a concrete kernel with a
positive row and a zero row. -/
theorem C7_diffusion_operator_rows_witness :
    (∀ i j, (0 : ℚ) ≤ kernelC7 i j) ∧
    (∑ j, diffusionOperator kernelC7 0 j = 1) ∧
    (∀ j, diffusionOperator kernelC7 1 j = 0) := by
  have hpos : ∀ i j, (0 : ℚ) ≤ kernelC7 i j := by
    intro i j
    by_cases h : i = 0 <;> simp [kernelC7, h]
  have h0 : (∑ j, kernelC7 0 j) ≠ 0 := by
    simp [Fin.sum_univ_two, kernelC7]
  have h1 : (∑ j, kernelC7 1 j) = 0 := by
    simp [Fin.sum_univ_two, kernelC7]
  exact ⟨hpos, (C7_diffusion_operator_rows kernelC7 hpos 0).1 h0,
    fun j => ((C7_diffusion_operator_rows kernelC7 hpos 1).2 h1).1 j⟩

/-- Case analysis of one kernel entry with the Gaussian decay `a = 2`:
every entry is either exactly 0 (NaN replacement or noise floor) or lies
in `[1e-3, 1]`. -/
theorem kernelEntry_cases (d s : ℝ) :
    kernelEntry d s 2 = 0 ∨
    (1 / 1000 ≤ kernelEntry d s 2 ∧ kernelEntry d s 2 ≤ 1) := by
  unfold kernelEntry
  by_cases hs : s = 0
  · by_cases hd : d = 0
    · left
      simp [pyDiv, hs, hd, pyPow, pyExpNeg, pyZeroFloor]
    · left
      by_cases hdp : 0 < d
      · simp only [pyDiv, if_pos hs, if_neg hd, if_pos hdp]
        norm_num [pyPow, pyExpNeg, pyZeroFloor]
      · simp only [pyDiv, if_pos hs, if_neg hd, if_neg hdp]
        norm_num [pyPow, pyExpNeg, pyZeroFloor]
  · simp only [pyDiv, if_neg hs, pyPow, pyExpNeg, pyZeroFloor]
    by_cases hlt : Real.exp (-(d / s) ^ 2) < 1 / 1000
    · left
      rw [if_pos hlt]
    · right
      rw [if_neg hlt]
      refine ⟨le_of_not_lt hlt, ?_⟩
      calc Real.exp (-(d / s) ^ 2) ≤ Real.exp 0 :=
            Real.exp_le_exp.mpr (neg_nonpos.mpr (sq_nonneg _))
        _ = 1 := Real.exp_zero

/-- Every entry of the kernel with Gaussian decay lies in `[0, 1]`. -/
theorem kernelEntry_mem_unit (d s : ℝ) :
    0 ≤ kernelEntry d s 2 ∧ kernelEntry d s 2 ≤ 1 := by
  rcases kernelEntry_cases d s with h | h
  · rw [h]; norm_num
  · exact ⟨le_trans (by norm_num) h.1, h.2⟩

/-- The square kernel built by `gauss_kernel` from any distance matrix
and any resolved bandwidth with decay `a = 2` is symmetric with entries
in `[0, 1]`. -/
theorem gaussKernelK_square_props {n : ℕ} (D : Fin n → Fin n → ℝ)
    (s : BandwidthV n) :
    (∀ i j, gaussKernelK D s 2 i j = gaussKernelK D s 2 j i) ∧
    (∀ i j, 0 ≤ gaussKernelK D s 2 i j ∧ gaussKernelK D s 2 i j ≤ 1) := by
  unfold gaussKernelK
  rw [dif_pos rfl]
  constructor
  · intro i j
    show (kernelEntry (D i j) (colSigma s j) 2 + kernelEntry (D j i) (colSigma s i) 2) / 2
      = (kernelEntry (D j i) (colSigma s i) 2 + kernelEntry (D i j) (colSigma s j) 2) / 2
    ring
  · intro i j
    show 0 ≤ (kernelEntry (D i j) (colSigma s j) 2 + kernelEntry (D j i) (colSigma s i) 2) / 2 ∧
      (kernelEntry (D i j) (colSigma s j) 2 + kernelEntry (D j i) (colSigma s i) 2) / 2 ≤ 1
    have h1 := kernelEntry_mem_unit (D i j) (colSigma s j)
    have h2 := kernelEntry_mem_unit (D j i) (colSigma s i)
    constructor
    · linarith [h1.1, h2.1]
    · linarith [h1.2, h2.2]

/-- `Claim C6` (confirmed): every self-affinity kernel `K` built by
`gauss_kernel` on identical input sets with a successfully resolved
bandwidth and the standard alpha-decay `a = 2` is symmetric, has all
entries in `[0, 1]`, and each raw (pre-symmetrisation) entry is either 0
(NaN results and sub-`1e-3` values are zeroed) or at least the `1e-3`
noise floor. -/
theorem C6_self_kernel_invariants {n dd : ℕ} [NeZero n]
    (data : Fin n → Fin dd → ℝ) (spec : SigmaSpec n n) (k : ℕ) (fac : ℝ)
    (K : Fin n → Fin n → ℝ) (s : BandwidthV n)
    (h : gaussKernelModel data data spec k 2 fac = Except.ok (K, s)) :
    (∀ i j, K i j = K j i) ∧
    (∀ i j, 0 ≤ K i j ∧ K i j ≤ 1) ∧
    (∀ i j, kernelEntry (distMatrix data data i j) (colSigma s j) 2 = 0 ∨
      (1 / 1000 ≤ kernelEntry (distMatrix data data i j) (colSigma s j) 2 ∧
       kernelEntry (distMatrix data data i j) (colSigma s j) 2 ≤ 1)) := by
  unfold gaussKernelModel at h
  by_cases hv : validSigma spec
  · rw [if_pos hv] at h
    cases hr : resolveSigma (distMatrix data data) spec k with
    | error e =>
      rw [hr] at h
      exact absurd h (by simp)
    | ok s0 =>
      rw [hr] at h
      have h2 := Except.ok.inj h
      injection h2 with hK hs
      subst hK
      subst hs
      refine ⟨(gaussKernelK_square_props _ _).1, (gaussKernelK_square_props _ _).2, ?_⟩
      intro i j
      exact kernelEntry_cases _ _
  · rw [if_neg hv] at h
    exact absurd h (by simp)

/-- Witness for `C6_self_kernel_invariants`: a one-point data set with
numeric bandwidth 1, where the hypothesis holds by computation. -/
theorem C6_self_kernel_invariants_witness :
    (∀ i j : Fin 1,
      gaussKernelK (distMatrix ((fun _ _ => (0 : ℝ)) : Fin 1 → Fin 1 → ℝ)
          ((fun _ _ => (0 : ℝ)) : Fin 1 → Fin 1 → ℝ)) (bwScale (BandwidthV.scalar 1) 1) 2 i j
        = gaussKernelK (distMatrix ((fun _ _ => (0 : ℝ)) : Fin 1 → Fin 1 → ℝ)
          ((fun _ _ => (0 : ℝ)) : Fin 1 → Fin 1 → ℝ)) (bwScale (BandwidthV.scalar 1) 1) 2 j i) ∧
    (∀ i j : Fin 1,
      0 ≤ gaussKernelK (distMatrix ((fun _ _ => (0 : ℝ)) : Fin 1 → Fin 1 → ℝ)
          ((fun _ _ => (0 : ℝ)) : Fin 1 → Fin 1 → ℝ)) (bwScale (BandwidthV.scalar 1) 1) 2 i j ∧
      gaussKernelK (distMatrix ((fun _ _ => (0 : ℝ)) : Fin 1 → Fin 1 → ℝ)
          ((fun _ _ => (0 : ℝ)) : Fin 1 → Fin 1 → ℝ)) (bwScale (BandwidthV.scalar 1) 1) 2 i j ≤ 1) ∧
    (∀ i j : Fin 1,
      kernelEntry (distMatrix ((fun _ _ => (0 : ℝ)) : Fin 1 → Fin 1 → ℝ)
          ((fun _ _ => (0 : ℝ)) : Fin 1 → Fin 1 → ℝ) i j)
        (colSigma (bwScale (BandwidthV.scalar 1) 1) j) 2 = 0 ∨
      (1 / 1000 ≤ kernelEntry (distMatrix ((fun _ _ => (0 : ℝ)) : Fin 1 → Fin 1 → ℝ)
          ((fun _ _ => (0 : ℝ)) : Fin 1 → Fin 1 → ℝ) i j)
        (colSigma (bwScale (BandwidthV.scalar 1) 1) j) 2 ∧
       kernelEntry (distMatrix ((fun _ _ => (0 : ℝ)) : Fin 1 → Fin 1 → ℝ)
          ((fun _ _ => (0 : ℝ)) : Fin 1 → Fin 1 → ℝ) i j)
        (colSigma (bwScale (BandwidthV.scalar 1) 1) j) 2 ≤ 1)) :=
  C6_self_kernel_invariants ((fun _ _ => (0 : ℝ)) : Fin 1 → Fin 1 → ℝ)
    (SigmaSpec.num 1) 5 1 _ _ rfl

/-- `Claim C8` counterexample: `magic` with `t = 0` and the default
`rescale=True` does NOT return the input unchanged for every data matrix
and kernel: on a 2-point data set whose single column is all zeros, the
95th-percentile rescale factor is the numpy division `0/0 = nan`, so the
output entries are NaN, not the input values. -/
theorem C8_magic_t0_counterexample :
    (magicModel ((fun _ _ => (0 : ℚ)) : Fin 2 → Fin 1 → ℚ)
        ((fun _ _ => (1 : ℚ)) : Fin 2 → Fin 2 → ℚ) 0 true).1 0 0 = PyF.nan ∧
    PyF.nan ≠ PyF.val (0 : ℚ) := by
  have hfr : (List.finRange 2) = [(0 : Fin 2), 1] := rfl
  constructor
  · have hp : matlabPercentile [(0 : ℚ), 0] 95 = 0 := by
      norm_num [matlabPercentile, sortAsc, insertAsc, interpPts]
    simp [magicModel, hfr, hp, pyDiv, pmulF]
  · simp

/-- `Claim C8` amended (proved): `magic` invoked with `t = 0` returns the
input points unchanged whenever `rescale` is disabled, or `rescale` is
enabled and every column has a nonzero 95th (matlab-convention)
percentile; when a column percentile is zero the rescale division makes
that column NaN instead. -/
theorem C8_magic_t0_amended {nn dd : ℕ} (data : Fin nn → Fin dd → ℚ)
    (kernel : Fin nn → Fin nn → ℚ) (rescale : Bool)
    (h : rescale = true → ∀ j : Fin dd,
      matlabPercentile ((List.finRange nn).map (fun i => data i j)) 95 ≠ 0) :
    (magicModel data kernel 0 rescale).1 = fun i j => PyF.val (data i j) := by
  cases rescale with
  | false => simp [magicModel]
  | true =>
    funext i j
    have hp := h rfl j
    simp [magicModel, pyDiv, hp, pmulF, div_self hp]

/-- Witness for `C8_magic_t0_amended` on a one-point data set with a
nonzero column. -/
theorem C8_magic_t0_amended_witness :
    (magicModel ((fun _ _ => (1 : ℚ)) : Fin 1 → Fin 1 → ℚ)
        ((fun _ _ => (1 : ℚ)) : Fin 1 → Fin 1 → ℚ) 0 true).1
      = fun i j => PyF.val (((fun _ _ => (1 : ℚ)) : Fin 1 → Fin 1 → ℚ) i j) :=
  C8_magic_t0_amended _ _ true (fun _ j => by
    have hfr : (List.finRange 1) = [(0 : Fin 1)] := rfl
    norm_num [hfr, matlabPercentile, sortAsc, insertAsc, interpPts])

/-- Summing a list after multiplying each element by a constant. -/
theorem sum_map_mul_const {K : Type} [LinearOrderedField K] (l : List K) (c : K) :
    (l.map (fun r => r * c)).sum = l.sum * c := by
  induction l with
  | nil => simp
  | cons x xs ih =>
    simp only [List.map_cons, List.sum_cons, ih]
    ring

/-- The sum of the floors of a list is at most the sum of the list. -/
theorem floorSum_le_sum (l : List ℚ) :
    (((l.map Int.floor).sum : ℤ) : ℚ) ≤ l.sum := by
  induction l with
  | nil => simp
  | cons x xs ih =>
    simp only [List.map_cons, List.sum_cons, Int.cast_add]
    exact add_le_add (Int.floor_le x) ih

/-- The sum of the floors of a list is less than one per element below
the sum of the list. -/
theorem sum_sub_len_le_floorSum (l : List ℚ) :
    l.sum - l.length ≤ (((l.map Int.floor).sum : ℤ) : ℚ) := by
  induction l with
  | nil => simp
  | cons x xs ih =>
    simp only [List.map_cons, List.sum_cons, List.length_cons, Int.cast_add]
    have hx : x - 1 ≤ (Int.floor x : ℚ) := le_of_lt (Int.sub_one_lt_floor x)
    push_cast
    push_cast at ih
    linarith

/-- `Claim C9` counterexample: in the non-equalize branch of `numpts` a
NEGATIVE `M` is NOT replaced by `N`: `if not bool(M)` only catches
`M == 0`, so `M = -2` is used as supplied, producing a different (and
negative) budget than the `M = N = 2` the claim prescribes. -/
theorem C9_negative_M_counterexample :
    numptsNoEq ([0, 1] : List ℚ) (-2) ≠ numptsNoEq ([0, 1] : List ℚ) 2 ∧
    numptsNoEq ([0, 1] : List ℚ) (-2) = [-2, 0] := by
  have hmax : listMax ([0, 1] : List ℚ) = 1 := by
    simp only [listMax, List.foldl_cons, List.foldl_nil]
    exact max_eq_right (by norm_num)
  have hfneg : (⌊(1 : ℚ) * ((-2 : ℤ) : ℚ) / (1 + 1 / 10 ^ 17)⌋ : ℤ) = -2 := by
    rw [Int.floor_eq_iff]
    norm_num
  have hfpos : (⌊(1 : ℚ) * ((2 : ℤ) : ℚ) / (1 + 1 / 10 ^ 17)⌋ : ℤ) = 1 := by
    rw [Int.floor_eq_iff]
    norm_num
  have hneg : numptsNoEq ([0, 1] : List ℚ) (-2) = [-2, 0] := by
    norm_num [numptsNoEq, hmax, hfneg]
  have hpos : numptsNoEq ([0, 1] : List ℚ) 2 = [1, 0] := by
    norm_num [numptsNoEq, hmax, hfpos]
  refine ⟨?_, hneg⟩
  rw [hneg, hpos]
  decide

/-- `Claim C9` amended (proved): in the non-equalize branch of `numpts`
the raw allocation is `max(degree) - degree[i]`; `M` is replaced by `N`
only when `M = 0` (Python falsiness; a negative `M` is used as
supplied); the raw vector is scaled to sum to `M` with the `1e-17`
denominator guard and floored; and for `M > 0` with non-degenerate
spread (`M * 1e-17 ≤ Σ raw`) the returned budget satisfies
`|sum(b) - M| ≤ N` — the fallback to a vector of ones when the floored
budget sums to zero stays within the same tolerance. -/
theorem C9_numpts_noeq_amended (degree : List ℚ) (M : ℤ) (_hne : degree ≠ [])
    (hM : 0 < M)
    (hnd : (M : ℚ) / 10 ^ 17 ≤ (degree.map (fun d => listMax degree - d)).sum) :
    numptsNoEq degree 0 = numptsNoEq degree degree.length ∧
    |(numptsNoEq degree M).sum - M| ≤ (degree.length : ℤ) := by
  constructor
  · simp [numptsNoEq]
  · have hMne : M ≠ 0 := ne_of_gt hM
    simp only [numptsNoEq, if_neg hMne]
    set const := listMax degree with hconst
    set raw := degree.map (fun d => const - d) with hraw
    set S := raw.sum with hSdef
    set eps : ℚ := 1 / 10 ^ 17 with heps
    set scaled := raw.map (fun r => r * (M : ℚ) / (S + eps)) with hscaled
    have heps0 : (0 : ℚ) < eps := by rw [heps]; norm_num
    have hS0 : (0 : ℚ) ≤ S := by
      rw [hSdef]
      apply List.sum_nonneg
      intro x hx
      simp only [hraw, List.mem_map] at hx
      obtain ⟨d, hd, rfl⟩ := hx
      have := le_listMax degree d hd
      rw [hconst]
      linarith
    have hden : (0 : ℚ) < S + eps := by linarith
    have hsum_scaled : scaled.sum = (M : ℚ) * (S / (S + eps)) := by
      have h1 : scaled = raw.map (fun r => r * ((M : ℚ) / (S + eps))) := by
        rw [hscaled]
        apply List.map_congr_left
        intro r _
        rw [mul_div_assoc]
      rw [h1, sum_map_mul_const, ← hSdef]
      ring
    have hMQ : (0 : ℚ) < (M : ℚ) := by exact_mod_cast hM
    have hfrac_le : S / (S + eps) ≤ 1 := by
      rw [div_le_one hden]
      linarith
    have hup : scaled.sum ≤ (M : ℚ) := by
      rw [hsum_scaled]
      calc (M : ℚ) * (S / (S + eps)) ≤ (M : ℚ) * 1 :=
            mul_le_mul_of_nonneg_left hfrac_le (le_of_lt hMQ)
        _ = M := mul_one _
    have hkey : (M : ℚ) * (S / (S + eps)) = (M : ℚ) - (M : ℚ) * eps / (S + eps) := by
      field_simp
      ring
    have hMe : (M : ℚ) * eps ≤ S := by
      have : (M : ℚ) * eps = (M : ℚ) / 10 ^ 17 := by rw [heps]; ring
      rw [this]
      exact hnd
    have hfr2 : (M : ℚ) * eps / (S + eps) < 1 := by
      rw [div_lt_one hden]
      linarith
    have hlow : (M : ℚ) - 1 < scaled.sum := by
      rw [hsum_scaled, hkey]
      linarith
    have hlen : scaled.length = degree.length := by
      rw [hscaled, List.length_map, hraw, List.length_map]
    have hupZ : (scaled.map Int.floor).sum ≤ M := by
      have := le_trans (floorSum_le_sum scaled) hup
      exact_mod_cast this
    have hlowZ : M - (degree.length : ℤ) ≤ (scaled.map Int.floor).sum := by
      have h2 := sum_sub_len_le_floorSum scaled
      rw [hlen] at h2
      have h3 : (M : ℚ) - 1 - (degree.length : ℚ) < ((scaled.map Int.floor).sum : ℚ) := by
        linarith
      have h4 : M - 1 - (degree.length : ℤ) < (scaled.map Int.floor).sum := by
        exact_mod_cast h3
      omega
    by_cases h0 : (scaled.map Int.floor).sum = 0
    · rw [if_pos h0]
      have hrep : (List.replicate degree.length (1 : ℤ)).sum = (degree.length : ℤ) := by
        simp [List.sum_replicate]
      rw [hrep, abs_le]
      constructor <;> omega
    · rw [if_neg h0]
      rw [abs_le]
      constructor <;> omega

/-- Witness for `C9_numpts_noeq_amended` at `degree = [0, 1]`, `M = 3`. -/
theorem C9_numpts_noeq_amended_witness :
    numptsNoEq ([0, 1] : List ℚ) 0 = numptsNoEq ([0, 1] : List ℚ) 2 ∧
    |(numptsNoEq ([0, 1] : List ℚ) 3).sum - 3| ≤ (2 : ℤ) :=
  C9_numpts_noeq_amended [0, 1] 3 (by simp) (by norm_num) (by
    have hmax : listMax ([0, 1] : List ℚ) = 1 := by
      simp only [listMax, List.foldl_cons, List.foldl_nil]
      exact max_eq_right (by norm_num)
    norm_num [hmax])

/-- `Claim C10` amended (proved): the `minmax` branch of `gauss_kernel`
fails with a broadcast shape error on every rectangular input whose
shapes are NOT broadcast-compatible with `np.eye(n)` — that is, whenever
`m ≠ n`, `m ≠ 1` and `n ≠ 1`; when one side has a single point numpy
broadcasting silently proceeds instead (see the counterexample). -/
theorem C10_minmax_broadcast_error {n m dd : ℕ} [NeZero n] [NeZero m]
    (data1 : Fin n → Fin dd → ℝ) (data2 : Fin m → Fin dd → ℝ)
    (k a : ℕ) (fac : ℝ) (hnm : m ≠ n) (hm : m ≠ 1) (hn : n ≠ 1) :
    gaussKernelModel data1 data2 (SigmaSpec.name "minmax") k a fac
      = Except.error broadcastErrorMessage := by
  have hv : validSigma (SigmaSpec.name "minmax" : SigmaSpec n m) = true := rfl
  have hr : resolveSigma (distMatrix data1 data2) (SigmaSpec.name "minmax") k
      = Except.error broadcastErrorMessage := by
    simp only [resolveSigma]
    rw [if_pos trivial, dif_neg hnm, dif_neg hm, dif_neg hn]
  unfold gaussKernelModel
  rw [hv, if_pos rfl, hr]

/-- Witness for `C10_minmax_broadcast_error` at shapes `2 × 3`. -/
theorem C10_minmax_broadcast_error_witness :
    gaussKernelModel ((fun _ _ => (0 : ℝ)) : Fin 2 → Fin 1 → ℝ)
        ((fun _ _ => (0 : ℝ)) : Fin 3 → Fin 1 → ℝ)
        (SigmaSpec.name "minmax") 5 2 1
      = Except.error broadcastErrorMessage :=
  C10_minmax_broadcast_error _ _ 5 2 1 (by decide) (by decide) (by decide)

/-- `Claim C10` counterexample: a rectangular `2 × 1` input (two points
against one point) does NOT make the `minmax` branch fail — the
`(2,1) + (2,2)` addition broadcasts, and `gauss_kernel` returns a kernel
and a bandwidth normally. -/
theorem C10_minmax_rectangular_counterexample :
    gaussKernelModel ((fun _ _ => (0 : ℝ)) : Fin 2 → Fin 1 → ℝ)
        ((fun _ _ => (0 : ℝ)) : Fin 1 → Fin 1 → ℝ) (SigmaSpec.name "minmax") 5 2 1
      = Except.ok (fun _ _ => 0, BandwidthV.scalar 0) := by
  have hD : distMatrix ((fun _ _ => (0 : ℝ)) : Fin 2 → Fin 1 → ℝ)
      ((fun _ _ => (0 : ℝ)) : Fin 1 → Fin 1 → ℝ) = fun _ _ => 0 := by
    funext i j
    simp [distMatrix]
  have hfr2 : (List.finRange 2) = [(0 : Fin 2), 1] := rfl
  have hmin : ∀ c : ℕ, finListMin (fun i : Fin 2 =>
      (if (i : ℕ) = c then (10 : ℝ) ^ (15 : ℕ) else 0)) = 0 := by
    intro c
    simp only [finListMin, hfr2, List.map_cons, List.map_nil,
      List.foldl_cons, List.foldl_nil]
    by_cases h0 : (0 : ℕ) = c
    · subst h0
      norm_num
    · by_cases h1 : (1 : ℕ) = c
      · subst h1
        norm_num [h0]
      · norm_num [h0, h1]
  have hs : resolveSigma (distMatrix ((fun _ _ => (0 : ℝ)) : Fin 2 → Fin 1 → ℝ)
      ((fun _ _ => (0 : ℝ)) : Fin 1 → Fin 1 → ℝ)) (SigmaSpec.name "minmax") 5
      = Except.ok (BandwidthV.scalar 0) := by
    simp only [resolveSigma]
    rw [if_pos trivial, dif_neg (by decide : ¬(1 = 2)), dif_pos trivial]
    simp [hD, hmin, finListMax, hfr2]
  have hv : validSigma (SigmaSpec.name "minmax" : SigmaSpec 2 1) = true := rfl
  have hbw : bwScale (BandwidthV.scalar (0 : ℝ) : BandwidthV 1) 1 = BandwidthV.scalar 0 := by
    simp [bwScale]
  have hK : gaussKernelK (distMatrix ((fun _ _ => (0 : ℝ)) : Fin 2 → Fin 1 → ℝ)
      ((fun _ _ => (0 : ℝ)) : Fin 1 → Fin 1 → ℝ))
      (BandwidthV.scalar (0 : ℝ) : BandwidthV 1) 2
      = fun _ _ => (0 : ℝ) := by
    funext i j
    simp only [gaussKernelK]
    rw [dif_neg (by decide : ¬(2 = 1))]
    simp [hD, hbw, kernelEntry, pyDiv, pyPow, pyExpNeg, pyZeroFloor, colSigma]
  unfold gaussKernelModel
  rw [hv, if_pos rfl, hs]
  simp only [hK, hbw]

/-- `Claim C3` evaluation at the failing input (code bug): `generate`
with a SCALAR noise covariance raises unconditionally — the loop builds
`rep_centers` as a Python list and line 479 then evaluates
`rep_centers.T`, an attribute a list does not have — so no point set of
`sum(budget)` rows is ever produced on this branch. -/
theorem C3_generate_scalar_eval :
    generateModel ([[0, 0], [1, 1]] : List (List ℚ)) [1, 1] (NoiseModel.scalar 1)
        ([] : List ℕ) (fun _ _ => [])
      = Except.error "AttributeError: list object has no attribute T" := rfl

/-- `Claim C1` evaluation at the failing input (code bug): the SUGAR
orchestrator invoked with a fixed scalar `noise_cov` (here 1, with
`equalize=False`, `mgc_t=0`, numeric degree bandwidth) does not return
its artifacts: it raises inside `generate` (scalar branch,
`AttributeError`), and even past that point the `return` statement reads
the unbound names `sigma` and `noise`. -/
theorem C1_sugar_scalar_eval :
    sugarScalarNoEqModel ((fun _ _ => (0 : ℝ)) : Fin 2 → Fin 2 → ℝ) ([] : List ℕ)
        1 (SigmaSpec.num 1) 5 2 1 0 (fun _ _ => [])
      = Except.error "AttributeError: list object has no attribute T" := rfl

/-- `Claim C2` evaluation at the failing input (code bug): `degrees`
rescales the kernel column sums by `N = data.shape[1]` — the number of
COLUMNS — so for 3 identical points in 2 dimensions (numeric bandwidth
1) every degree is `3 * 2 / 9 = 2/3` and the degree vector sums to the
feature count 2, not to the number of points 3 as the claim (and the
docstring, which calls the data `N x D` with `N` rows of measurements)
requires. -/
theorem C2_degrees_column_rescale_eval :
    degreesModel ((fun _ _ => (0 : ℝ)) : Fin 3 → Fin 2 → ℝ) (SigmaSpec.num 1) 5 2 1
      = Except.ok (fun _ => 2 / 3, fun _ => PyF.val (3 / 2), BandwidthV.scalar 1) ∧
    ((2 : ℝ) / 3 + 2 / 3 + 2 / 3 = 2) ∧ (2 : ℝ) ≠ 3 := by
  refine ⟨?_, by norm_num, by norm_num⟩
  have hD : distMatrix ((fun _ _ => (0 : ℝ)) : Fin 3 → Fin 2 → ℝ)
      ((fun _ _ => (0 : ℝ)) : Fin 3 → Fin 2 → ℝ) = fun _ _ => 0 := by
    funext i j
    simp [distMatrix]
  have hE : ∀ i j : Fin 3, gaussKernelK (distMatrix ((fun _ _ => (0 : ℝ)) : Fin 3 → Fin 2 → ℝ)
      ((fun _ _ => (0 : ℝ)) : Fin 3 → Fin 2 → ℝ))
      (BandwidthV.scalar 1 : BandwidthV 3) 2 i j = 1 := by
    intro i j
    simp only [gaussKernelK]
    rw [dif_pos trivial]
    norm_num [hD, colSigma, kernelEntry, pyDiv, pyPow, pyExpNeg,
      pyZeroFloor, Real.exp_zero]
  have hg : gaussKernelModel ((fun _ _ => (0 : ℝ)) : Fin 3 → Fin 2 → ℝ)
      ((fun _ _ => (0 : ℝ)) : Fin 3 → Fin 2 → ℝ) (SigmaSpec.num 1) 5 2 1
      = Except.ok (gaussKernelK (distMatrix ((fun _ _ => (0 : ℝ)) : Fin 3 → Fin 2 → ℝ)
          ((fun _ _ => (0 : ℝ)) : Fin 3 → Fin 2 → ℝ)) (bwScale (BandwidthV.scalar 1) 1) 2,
        bwScale (BandwidthV.scalar 1) 1) := rfl
  have hbw : bwScale (BandwidthV.scalar (1 : ℝ) : BandwidthV 3) 1 = BandwidthV.scalar 1 := by
    simp [bwScale]
  have hsum : ∀ j : Fin 3, (∑ i, gaussKernelK (distMatrix ((fun _ _ => (0 : ℝ)) : Fin 3 → Fin 2 → ℝ)
      ((fun _ _ => (0 : ℝ)) : Fin 3 → Fin 2 → ℝ))
      (BandwidthV.scalar 1 : BandwidthV 3) 2 i j) = 3 := by
    intro j
    rw [Fin.sum_univ_three, hE, hE, hE]
    norm_num
  unfold degreesModel
  rw [hg]
  simp only [hbw, Except.ok.injEq, Prod.mk.injEq]
  refine ⟨?_, ?_, trivial⟩
  · funext j
    simp only [hsum, Finset.sum_const, Finset.card_univ, Fintype.card_fin]
    norm_num
  · funext j
    simp only [hsum, Finset.sum_const, Finset.card_univ, Fintype.card_fin]
    norm_num [pyRecip]

/-- `Claim C4` evaluation at the failing input (code bug): `mgc_magic`
called with `t = 0` emits the no-correction warning but then still
builds both rectangular kernels, the sparsity-weighted MGC kernel
(here the nonzero 1x1 matrix `[[2]]`), and the diffusion operator
(`[[1]]`) — the outputs are not empty and kernel construction is
performed, contradicting the claim (and the warning text itself). -/
theorem C4_mgc_t0_eval :
    mgcMagicModel ((fun _ _ => (1 : ℝ)) : Fin 1 → Fin 1 → ℝ)
        ((fun _ _ => (1 : ℝ)) : Fin 1 → Fin 1 → ℝ) (fun _ => 2)
        (SigmaSpecG.num 1) 5 2 1 0 true
      = Except.ok (fun _ _ => PyF.val 1, fun _ _ => 2, fun _ _ => 1,
          [zeroDiffusionMessage]) := by
  have hD : distMatrix ((fun _ _ => (1 : ℝ)) : Fin 1 → Fin 1 → ℝ)
      ((fun _ _ => (1 : ℝ)) : Fin 1 → Fin 1 → ℝ) = fun _ _ => 0 := by
    funext i j
    simp [distMatrix]
  have hE : ∀ i j : Fin 1, gaussKernelK (distMatrix ((fun _ _ => (1 : ℝ)) : Fin 1 → Fin 1 → ℝ)
      ((fun _ _ => (1 : ℝ)) : Fin 1 → Fin 1 → ℝ))
      (bwScale (BandwidthV.scalar 1) 1) 2 i j = 1 := by
    intro i j
    simp only [gaussKernelK]
    rw [dif_pos trivial]
    norm_num [hD, colSigma, bwScale, kernelEntry, pyDiv, pyPow, pyExpNeg,
      pyZeroFloor, Real.exp_zero]
  have hg : gaussKernelModel ((fun _ _ => (1 : ℝ)) : Fin 1 → Fin 1 → ℝ)
      ((fun _ _ => (1 : ℝ)) : Fin 1 → Fin 1 → ℝ)
      (specAt (SigmaSpecG.num 1) 1 1) 5 2 1
      = Except.ok (gaussKernelK (distMatrix ((fun _ _ => (1 : ℝ)) : Fin 1 → Fin 1 → ℝ)
          ((fun _ _ => (1 : ℝ)) : Fin 1 → Fin 1 → ℝ)) (bwScale (BandwidthV.scalar 1) 1) 2,
        bwScale (BandwidthV.scalar 1) 1) := rfl
  have hperc : matlabPercentile [(1 : ℝ)] 95 = 1 := by
    norm_num [matlabPercentile, sortAsc, insertAsc, interpPts]
  have hfr1 : (List.finRange 1) = [(0 : Fin 1)] := rfl
  unfold mgcMagicModel
  rw [hg]
  simp only [magicModel, diffusionOperator, diffusionDegree, matApply,
    Function.iterate_zero, id_eq, hfr1, List.map_cons, List.map_nil, hE,
    Fin.sum_univ_one, Except.ok.injEq, Prod.mk.injEq]
  norm_num [hperc, pyDiv, pmulF]
  funext i j
  norm_num [diffusionOperator, diffusionDegree, Fin.sum_univ_one]
